import Mathlib

/-!
Verification of the financial-statements preparation engine.

Shallow embedding of `src/financial_app.py` (a Streamlit trial-balance
classification and aggregation app).  The embedding covers the parts the
claims are about: strategy 1 of `parse_tally_file`, the taxonomy and its
derived codes, `generate_financial_statements` (category routing,
sub-schedule update, demo-data path, notes, version commit), the
"Load Selected Version" handler, and the session-state operations.

Modelling conventions, uniform across the file:
* Python floats are modelled as exact rationals (`ℚ`); timestamps
  (`datetime.now()`) are omitted, since no claim depends on them.
* Python dicts are modelled as association lists in insertion order
  (`dictSet` updates the first matching key in place, else appends),
  matching CPython's ordered-dict semantics.
* Python exceptions that escape `generate_financial_statements`
  (`NameError` for an unbound local, `KeyError` for a missing dict key)
  are modelled by `Except PyErr`.
* Session state is passed explicitly; each Streamlit handler is a pure
  state transition (mutations of `st.session_state` are rebindings).
-/

namespace FinApp

/-- Balances and totals; Python floats are modelled as exact rationals. -/
abbrev Amt := ℚ

/-- A ledger record as produced by `parse_tally_file`: `{'name': ..., 'balance': ...}`. -/
structure Ledger where
  name : String
  balance : Amt
deriving DecidableEq, Repr

instance : Inhabited Ledger := ⟨⟨"", 0⟩⟩

/-- The parsed Tally payload `{'ledgers': ..., 'tally_version': ...}`
(`export_date` is a timestamp and is omitted). -/
structure TallyData where
  ledgers : List Ledger
  tallyVersion : String
deriving DecidableEq, Repr

/-- Python dict as an association list in insertion order. -/
abbrev Dict (α : Type) := List (String × α)

/-- Python dict assignment `d[k] = v`: overwrite the first binding of `k`
in place, else append a new binding at the end. -/
def dictSet {α : Type} : Dict α → String → α → Dict α
  | [], k, v => [(k, v)]
  | p :: d, k, v => if p.1 = k then (k, v) :: d else p :: dictSet d k v

/-! ## String primitives

The Python string operations the engine uses (`strip`, `split`,
`startswith`, `in`, `replace`) are modelled by structural recursion over
character lists, so that every definition evaluates inside the kernel. -/

/-- Whether `pat` is a prefix of `s` (`startsList pat s`). -/
def startsList : List Char → List Char → Bool
  | [], _ => true
  | _ :: _, [] => false
  | p :: ps, c :: cs => p = c && startsList ps cs

/-- Python's substring test `pat in s` on character lists. -/
def containsList : List Char → List Char → Bool
  | [], pat => pat.isEmpty
  | c :: t, pat => startsList pat (c :: t) || containsList t pat

/-- The characters before the first occurrence of `sep` (the whole list
when `sep` does not occur): Python `s.split(sep)[0]`. -/
def takeUntilSep (sep : List Char) : List Char → List Char
  | [] => []
  | c :: t => if startsList sep (c :: t) then [] else c :: takeUntilSep sep t

/-- The characters after the first occurrence of `sep`, `none` when `sep`
does not occur. -/
def dropPastSep (sep : List Char) : List Char → Option (List Char)
  | [] => none
  | c :: t =>
    if startsList sep (c :: t) then some (t.drop (sep.length - 1)) else dropPastSep sep t

/-- Fuel-indexed worker for `removeAllList`; the fuel starts at the list
length, which suffices since every step consumes at least one character. -/
def removeAllAux (pat : List Char) : ℕ → List Char → List Char
  | 0, s => s
  | _ + 1, [] => []
  | n + 1, c :: t =>
    if startsList pat (c :: t) then removeAllAux pat n (t.drop (pat.length - 1))
    else c :: removeAllAux pat n t

/-- Python `s.replace(pat, '')` for a non-empty `pat`: delete every
(leftmost, non-overlapping) occurrence. -/
def removeAllList (pat s : List Char) : List Char :=
  removeAllAux pat s.length s

/-- Python `s.strip()`: drop whitespace from both ends. -/
def trimList (s : List Char) : List Char :=
  ((s.dropWhile Char.isWhitespace).reverse.dropWhile Char.isWhitespace).reverse

/-- Python `s.strip()` on strings. -/
def pyStrip (s : String) : String :=
  String.mk (trimList s.data)

/-! ## Ledger extractor, strategy 1 (`parse_tally_file`, lines 215-237)

The regular-expression captures `<DSPDISPNAME>…</DSPDISPNAME>` and
`<DSPCLDRAMTA>…</DSPCLDRAMTA>` are taken as the two input lists `names`
and `amounts`; the pairing loop is modelled exactly. -/

/-- Value of a list of decimal digit characters. -/
def digitsToNat (l : List Char) : ℕ :=
  l.foldl (fun a c => a * 10 + (c.toNat - 48)) 0

/-- Split a character list at the first `e`/`E` (exponent marker). -/
def breakExp : List Char → List Char × Option (List Char)
  | [] => ([], none)
  | c :: r =>
    if c = 'e' || c = 'E' then ([], some r)
    else
      let p := breakExp r
      (c :: p.1, p.2)

/-- Exponent of Python's `float(str)` grammar: an optionally signed digit run. -/
def parseExpDigits : List Char → Option ℤ
  | '+' :: r => if !r.isEmpty && r.all Char.isDigit then some (digitsToNat r : ℤ) else none
  | '-' :: r => if !r.isEmpty && r.all Char.isDigit then some (-(digitsToNat r : ℤ)) else none
  | r => if !r.isEmpty && r.all Char.isDigit then some (digitsToNat r : ℤ) else none

/-- The discrete components of a string accepted by Python's `float(str)`
grammar: sign, integer digits, fractional digits with their count, and
exponent. -/
structure FloatParts where
  neg : Bool
  intPart : ℕ
  fracPart : ℕ
  fracLen : ℕ
  exp : ℤ
deriving DecidableEq, Repr

/-- Recognize the finite-decimal grammar of Python's `float(str)`:
`[ws] [sign] (digits [. digits] | . digits) [(e|E) [sign] digits] [ws]`,
returning its components.  `inf`, `nan` and digit-group underscores, which
never occur in Tally amount fields, are out of scope and yield `none`. -/
def pyFloatParts (s : String) : Option FloatParts :=
  let l := trimList s.data
  let neg := startsList ['-'] l
  let body := if startsList ['+'] l || startsList ['-'] l then l.drop 1 else l
  let mant := (breakExp body).1
  let ip := mant.takeWhile Char.isDigit
  let fracOk : Option (ℕ × ℕ) :=
    match mant.drop ip.length with
    | [] => if ip.isEmpty then none else some (0, 0)
    | '.' :: fp =>
      if fp.all Char.isDigit && !(ip.isEmpty && fp.isEmpty) then
        some (digitsToNat fp, fp.length)
      else none
    | _ => none
  match fracOk, (breakExp body).2 with
  | some fr, none => some ⟨neg, digitsToNat ip, fr.1, fr.2, 0⟩
  | some fr, some ed =>
    (parseExpDigits ed).map (fun e => ⟨neg, digitsToNat ip, fr.1, fr.2, e⟩)
  | none, _ => none

/-- Python's built-in `float(str)` conversion on its finite-decimal
grammar, as the exact rational value of the recognized components. -/
def pyFloat (s : String) : Option ℚ :=
  (pyFloatParts s).map (fun p =>
    (if p.neg then (-1 : ℚ) else 1) * ((p.intPart : ℚ) + (p.fracPart : ℚ) / (10 : ℚ) ^ p.fracLen)
      * (10 : ℚ) ^ p.exp)

/-- `float(amount_str.replace(',', ''))` with the `except ValueError: amount = 0`
fallback (lines 229-232). -/
def parseAmount (s : String) : Amt :=
  (pyFloat (String.mk (removeAllList ",".data s.data))).getD 0

/-- Strategy 1 of `parse_tally_file` (lines 222-237): if both capture lists
are non-empty, pair the i-th stripped name with the i-th stripped amount,
truncating at `min` of the lengths. -/
def parse_tally_strategy1 (names amounts : List String) : List Ledger :=
  if names ≠ [] ∧ amounts ≠ [] then
    (List.range (min names.length amounts.length)).map (fun i =>
      { name := pyStrip (names.getD i ""),
        balance := parseAmount (pyStrip (amounts.getD i "")) })
  else []

/-! ## Taxonomy (`FINANCIAL_STATEMENT_HIERARCHY`, lines 49-153) -/

/-- Python `"".join(s.split())`: drop all whitespace. -/
def stripWS (s : String) : String :=
  String.mk (s.data.filter (fun c => !c.isWhitespace))

/-- The hierarchy flattened to `(statement, category, sub-categories)` in
the source's iteration order (Balance Sheet assets, then liabilities, then
P&L income, then expenses); the intermediate `category_type` level only
fixes this order and is dropped. -/
def hierCategories : List (String × String × List String) := [
  ("Balance Sheet", "Fixed Assets",
    ["Land and Buildings", "Plant and Machinery", "Furniture and Fixtures",
     "Vehicles", "Computer Equipment", "Other Fixed Assets"]),
  ("Balance Sheet", "Investments",
    ["Long-term Investments", "Short-term Investments", "Investment in Properties",
     "Other Investments"]),
  ("Balance Sheet", "Current Assets",
    ["Inventories", "Sundry Debtors", "Cash and Bank Balances", "Loans and Advances",
     "Deposits", "Other Current Assets"]),
  ("Balance Sheet", "Capital Account",
    ["Owner\x27s Capital", "Partner\x27s Capital", "Drawings", "Other Capital Items"]),
  ("Balance Sheet", "Reserves and Surplus",
    ["General Reserve", "Revaluation Reserve", "Retained Earnings", "Other Reserves"]),
  ("Balance Sheet", "Long Term Loans",
    ["Secured Loans", "Unsecured Loans", "Term Loans", "Other Long-term Loans"]),
  ("Balance Sheet", "Current Liabilities",
    ["Sundry Creditors", "Outstanding Expenses", "Statutory Liabilities",
     "Advances from Customers", "Other Current Liabilities"]),
  ("Profit & Loss", "Revenue from Operations",
    ["Domestic Sales", "Export Sales", "Service Income", "Other Operational Income"]),
  ("Profit & Loss", "Other Income",
    ["Interest Income", "Dividend Income", "Rental Income", "Miscellaneous Income"]),
  ("Profit & Loss", "Cost of Goods Sold",
    ["Raw Material Consumed", "Direct Expenses", "Purchase of Stock-in-Trade",
     "Changes in Inventories"]),
  ("Profit & Loss", "Employee Benefits",
    ["Salaries and Wages", "Bonus and Incentives", "Staff Welfare Expenses",
     "Other Employee Costs"]),
  ("Profit & Loss", "Finance Cost",
    ["Interest Expenses", "Bank Charges", "Other Financial Charges"]),
  ("Profit & Loss", "Depreciation",
    ["Depreciation on Fixed Assets", "Amortization", "Other Depreciation"]),
  ("Profit & Loss", "Other Expenses",
    ["Administrative Expenses", "Selling and Distribution Expenses", "Rent and Utilities",
     "Repairs and Maintenance", "Travel and Conveyance", "Legal and Professional Fees",
     "Insurance", "Miscellaneous Expenses"])]

/-- Derived category code: `("BS_" | "PL_") + "".join(category.split())`. -/
def mkCategoryKey (statement category : String) : String :=
  (if statement = "Balance Sheet" then "BS_" else "PL_") ++ stripWS category

/-! ## Aggregation result structure (`generate_financial_statements`, lines 316-414) -/

/-- The 14 categories of the fixed taxonomy, in hierarchy order. -/
inductive Cat where
  | fixedAssets | investments | currentAssets
  | capital | reserves | longTermLoans | currentLiabilities
  | revenue | otherIncome | cogs | employeeBenefits | financeCosts
  | depreciation | otherExpenses
deriving DecidableEq, Repr, Fintype

/-- The `category_key` string the source assigns for each routed category
(lines 440-485). -/
def catKey : Cat → String
  | .fixedAssets => "BS_FixedAssets"
  | .investments => "BS_Investments"
  | .currentAssets => "BS_CurrentAssets"
  | .capital => "BS_CapitalAccount"
  | .reserves => "BS_ReservesandSurplus"
  | .longTermLoans => "BS_LongTermLoans"
  | .currentLiabilities => "BS_CurrentLiabilities"
  | .revenue => "PL_RevenuefromOperations"
  | .otherIncome => "PL_OtherIncome"
  | .cogs => "PL_CostofGoodsSold"
  | .employeeBenefits => "PL_EmployeeBenefits"
  | .financeCosts => "PL_FinanceCost"
  | .depreciation => "PL_Depreciation"
  | .otherExpenses => "PL_OtherExpenses"

/-- Python's substring test `pat in s`. -/
def strContains (s pat : String) : Bool :=
  containsList s.data pat.data

/-- Python's `s.startswith(pat)`. -/
def strStarts (s pat : String) : Bool :=
  startsList pat.data s.data

/-- The `if category_code.startswith('BS_'): if 'FixedAssets' in category_code: …`
keyword cascade of lines 440-485, first match wins; `none` when the code
starts with `BS_`/`PL_` but matches no keyword (the branch that leaves
`category_key` untouched), or starts with neither. -/
def routeCode (code : String) : Option Cat :=
  if strStarts code "BS_" then
    if strContains code "FixedAssets" then some .fixedAssets
    else if strContains code "Investments" then some .investments
    else if strContains code "CurrentAssets" then some .currentAssets
    else if strContains code "Capital" then some .capital
    else if strContains code "Reserves" then some .reserves
    else if strContains code "LongTermLoans" then some .longTermLoans
    else if strContains code "CurrentLiabilities" then some .currentLiabilities
    else none
  else if strStarts code "PL_" then
    if strContains code "Revenue" then some .revenue
    else if strContains code "OtherIncome" then some .otherIncome
    else if strContains code "COGS" then some .cogs
    else if strContains code "EmployeeBenefits" then some .employeeBenefits
    else if strContains code "FinanceCost" then some .financeCosts
    else if strContains code "Depreciation" then some .depreciation
    else if strContains code "OtherExpenses" then some .otherExpenses
    else none
  else none

/-- One sub-schedule item `{'name': ..., 'amount': ..., 'ledgers': [...]}`. -/
structure SubItem where
  name : String
  amount : Amt
  ledgers : List Ledger
deriving DecidableEq, Repr

/-- One sub-schedule `{'name': category, 'items': {...}}`. -/
structure Schedule where
  name : String
  items : Dict SubItem
deriving DecidableEq, Repr

/-- A statement category node `{'total': ..., 'sub_categories': {...}}`.
The `sub_categories` dict is written only by the demo-data path. -/
structure CatData where
  total : Amt
  subCategories : Dict Amt
deriving DecidableEq, Repr

/-- The statement tree: the fixed-shape `balance_sheet` / `profit_and_loss`
nests are collapsed to one map over the 14 categories, plus the
`sub_schedules` dict. -/
structure Statements where
  cats : Cat → CatData
  subSchedules : Dict Schedule

/-- The `note1_capital` record of the `notes` dict. -/
structure Note where
  openingBalance : Amt
  additions : Amt
deriving DecidableEq, Repr

/-- The finished `financial_statements` value (tree plus `notes`;
`generated_at` is a timestamp and is omitted). -/
structure Result where
  stmts : Statements
  notes : List (String × Note)

/-- Python exceptions that can escape `generate_financial_statements`. -/
inductive PyErr where
  | nameError (var : String)
  | keyError (key : String)
deriving DecidableEq, Repr

/-- The pre-initialized `sub_schedules` dict (lines 394-413): one entry per
category in hierarchy order, each item keyed by the whitespace-stripped
sub-category name with amount 0 and no ledgers. -/
def initSubSchedules : Dict Schedule :=
  hierCategories.map (fun entry =>
    (mkCategoryKey entry.1 entry.2.1,
     { name := entry.2.1,
       items := entry.2.2.map (fun sub =>
         (stripWS sub, { name := sub, amount := 0, ledgers := [] })) }))

/-- The zero-initialized statement tree of lines 320-414. -/
def initStatements : Statements :=
  { cats := fun _ => { total := 0, subCategories := [] },
    subSchedules := initSubSchedules }

/-- `main_mapping.split(" - ")[0]` (also `sub_code` extraction, line 490). -/
def splitHead (s : String) : String :=
  String.mk (takeUntilSep " - ".data s.data)

/-- `sub_mapping.split(" - ")[1] if " - " in sub_mapping else sub_category`
(line 502). -/
def bestName (subMapping fallback : String) : String :=
  match dropPastSep " - ".data subMapping.data with
  | some rest => String.mk (takeUntilSep " - ".data rest)
  | none => fallback

/-- The sub-schedule update of lines 487-510, for a `category_key` whose
schedule is present: strip the `{category_key}_` prefix from the sub code;
add to the existing item, else create a new item at the end. -/
def updateSub (st : Statements) (key subMapping : String) (l : Ledger) : Statements :=
  match List.lookup key st.subSchedules with
  | none => st
  | some sch =>
    let subCategory := String.mk (removeAllList (key ++ "_").data (splitHead subMapping).data)
    let newSch :=
      match List.lookup subCategory sch.items with
      | some it =>
        let it2 : SubItem :=
          { it with amount := it.amount + l.balance, ledgers := it.ledgers ++ [l] }
        { sch with items := dictSet sch.items subCategory it2 }
      | none =>
        { sch with items := sch.items ++
            [(subCategory,
              { name := bestName subMapping subCategory, amount := l.balance,
                ledgers := [l] })] }
    { st with subSchedules := dictSet st.subSchedules key newSch }

/-- `+= balance` on one category's running total. -/
def addTotal (st : Statements) (c : Cat) (b : Amt) : Statements :=
  let cd2 : CatData := { st.cats c with total := (st.cats c).total + b }
  { st with cats := Function.update st.cats c cd2 }

/-- One iteration of the ledger loop (lines 417-510).  The second component
of the accumulator is the Python local `category_key`: `none` while still
unbound, and carried over unchanged (stale) when the keyword cascade does
not match.  Reading it unbound is the `NameError` case. -/
def processLedger (m sm : Dict String) (acc : Statements × Option String) (l : Ledger) :
    Except PyErr (Statements × Option String) :=
  match List.lookup l.name m with
  | none => .ok acc
  | some mainMapping =>
    if mainMapping = "Select mapping..." then .ok acc
    else
      let subMapping := (List.lookup l.name sm).getD "Select sub-category..."
      let categoryCode := splitHead mainMapping
      let st1 := match routeCode categoryCode with
        | some c => addTotal acc.1 c l.balance
        | none => acc.1
      let key1 := match routeCode categoryCode with
        | some c => some (catKey c)
        | none => acc.2
      if subMapping = "Select sub-category..." then .ok (st1, key1)
      else
        match key1 with
        | none => .error (.nameError "category_key")
        | some k =>
          if (List.lookup k st1.subSchedules).isSome then .ok (updateSub st1 k subMapping l, key1)
          else .ok (st1, key1)

/-- The demo amounts written into a given sub-schedule by lines 626-634
(`BS_FixedAssets` and `BS_Investments` only; the source comment
`# ... and so on for other categories` covers no further writes). -/
def demoScheduleWrites (categoryKey : String) : List (String × Amt) :=
  if categoryKey = "BS_FixedAssets" then
    [("LandandBuildings", 400000), ("PlantandMachinery", 200000), ("OtherFixedAssets", 200000)]
  else if categoryKey = "BS_Investments" then
    [("LongtermInvestments", 200000), ("ShorttermInvestments", 100000)]
  else []

/-- `category_data['items'][k]['amount'] = amt`: a `KeyError` when `k` is
not a key of the items dict. -/
def setItemAmount (sch : Schedule) (k : String) (amt : Amt) : Except PyErr Schedule :=
  match List.lookup k sch.items with
  | some it => .ok { sch with items := dictSet sch.items k { it with amount := amt } }
  | none => .error (.keyError k)

/-- The demo-data sub-schedule population loop of lines 626-634. -/
def demoPopulate (ss : Dict Schedule) : Except PyErr (Dict Schedule) :=
  ss.mapM (fun entry => do
    let sch ← (demoScheduleWrites entry.1).foldlM
      (fun s kv => setItemAmount s kv.1 kv.2) entry.2
    pure (entry.1, sch))

/-- The demo `balance_sheet` / `profit_and_loss` replacement of lines 515-623. -/
def demoCats : Cat → CatData
  | .fixedAssets =>
    { total := 800000, subCategories :=
        [("land_and_buildings", 400000), ("plant_and_machinery", 200000),
         ("other_fixed_assets", 200000)] }
  | .investments =>
    { total := 300000, subCategories :=
        [("long_term_investments", 200000), ("short_term_investments", 100000)] }
  | .currentAssets =>
    { total := 700000, subCategories := [("inventory", 300000), ("cash_and_bank", 400000)] }
  | .capital => { total := 1000000, subCategories := [("owner_capital", 1000000)] }
  | .reserves => { total := 500000, subCategories := [("general_reserve", 500000)] }
  | .longTermLoans => { total := 200000, subCategories := [("secured_loans", 200000)] }
  | .currentLiabilities => { total := 100000, subCategories := [("sundry_creditors", 100000)] }
  | .revenue =>
    { total := 2000000, subCategories := [("domestic_sales", 1500000), ("export_sales", 500000)] }
  | .otherIncome =>
    { total := 100000, subCategories := [("interest_income", 50000), ("misc_income", 50000)] }
  | .cogs =>
    { total := 1000000, subCategories := [("raw_materials", 800000), ("direct_expenses", 200000)] }
  | .employeeBenefits =>
    { total := 500000, subCategories := [("salaries", 400000), ("staff_welfare", 100000)] }
  | .financeCosts =>
    { total := 100000, subCategories := [("interest_expense", 80000), ("bank_charges", 20000)] }
  | .depreciation =>
    { total := 200000, subCategories := [("depreciation_fixed_assets", 200000)] }
  | .otherExpenses =>
    { total := 300000, subCategories :=
        [("rent", 100000), ("utilities", 100000), ("misc_expenses", 100000)] }

/-- The `notes` construction of lines 637-644. -/
def mkResult (st : Statements) : Result :=
  { stmts := st,
    notes := [("note1_capital",
      { openingBalance := (st.cats Cat.capital).total * (0.8 : ℚ),
        additions := (st.cats Cat.capital).total * (0.2 : ℚ) })] }

/-- The ledger loop of lines 415-510: run only when `tally_data` is set,
starting from the zero-initialized tree with `category_key` unbound. -/
def foldLedgers (m sm : Dict String) (td : Option TallyData) :
    Except PyErr (Statements × Option String) :=
  match td with
  | some t => List.foldlM (processLedger m sm) (initStatements, none) t.ledgers
  | none => .ok (initStatements, none)

/-- The pure core of `generate_financial_statements` (lines 316-644): the
ledger loop, the empty-mapping demo path, then the notes. -/
def computeStatements (m sm : Dict String) (td : Option TallyData) : Except PyErr Result :=
  match foldLedgers m sm td with
  | .error e => .error e
  | .ok st =>
    if m = [] then
      match demoPopulate st.1.subSchedules with
      | .error e => .error e
      | .ok ss => .ok (mkResult { cats := demoCats, subSchedules := ss })
    else .ok (mkResult st.1)

/-- One archived version (lines 647-654; the `timestamp` field is omitted). -/
structure Version where
  id : ℕ
  mappedAccounts : Dict String
  subScheduleMapping : Dict String
  tallyData : Option TallyData
  financialStatements : Result

/-- The modelled slice of `st.session_state`. -/
structure SessionState where
  mappedAccounts : Dict String
  subScheduleMapping : Dict String
  tallyData : Option TallyData
  versions : List Version
  currentVersion : Option ℕ
  financialStatements : Option Result

/-- The new version committed at lines 646-654: `id = count + 1`, the
mapping snapshots (`.copy()`), the current `tally_data`, and the result. -/
def commitVersion (s : SessionState) (result : Result) : Version :=
  { id := s.versions.length + 1,
    mappedAccounts := s.mappedAccounts,
    subScheduleMapping := s.subScheduleMapping,
    tallyData := s.tallyData,
    financialStatements := result }

/-- `generate_financial_statements` (lines 316-658): compute the statement
tree and, on success, commit a new version and mark it current; on a raise
the session state is unchanged (the session writes all sit after the loop). -/
def generate_financial_statements (s : SessionState) : Except PyErr SessionState :=
  (computeStatements s.mappedAccounts s.subScheduleMapping s.tallyData).map (fun result =>
    { s with versions := s.versions ++ [commitVersion s result],
             currentVersion := some (commitVersion s result).id,
             financialStatements := some result })

/-- The "Load Selected Version" handler (lines 2038-2050): look the id up;
on a hit install the mapping snapshots and the stored result (the
`'sub_schedule_mapping' in version` / `'financial_statements' in version`
guards always hold for versions built by the commit above); `tally_data`
is not touched.  On a miss nothing changes. -/
def load_selected_version (s : SessionState) (versionId : ℕ) : SessionState :=
  match s.versions.find? (fun v => v.id = versionId) with
  | some v =>
    { s with currentVersion := some v.id,
             mappedAccounts := v.mappedAccounts,
             subScheduleMapping := v.subScheduleMapping,
             financialStatements := some v.financialStatements }
  | none => s

/-- The session-level operations of the app that touch the modelled state:
uploading/pasting or sample data (rebinds `tally_data`), the mapping
dropdowns, `load_mappings` (wholesale replacement at session start),
"Generate Financial Statements", and "Load Selected Version". -/
inductive Op where
  | setTallyData (td : Option TallyData)
  | setMapping (name option : String)
  | setSubMapping (name option : String)
  | setMappings (m sm : Dict String)
  | generateStatements
  | restore (id : ℕ)

/-- One user action as a state transition; a raising
`generate_financial_statements` leaves the session unchanged. -/
def step (s : SessionState) (op : Op) : SessionState :=
  match op with
  | .setTallyData td => { s with tallyData := td }
  | .setMapping n o => { s with mappedAccounts := dictSet s.mappedAccounts n o }
  | .setSubMapping n o => { s with subScheduleMapping := dictSet s.subScheduleMapping n o }
  | .setMappings m sm => { s with mappedAccounts := m, subScheduleMapping := sm }
  | .generateStatements =>
    match generate_financial_statements s with
    | .ok s2 => s2
    | .error _ => s
  | .restore i => load_selected_version s i

/-- The fresh session of lines 31-46. -/
def initialState : SessionState :=
  { mappedAccounts := [], subScheduleMapping := [], tallyData := none,
    versions := [], currentVersion := none, financialStatements := none }

/-- All states reachable from a fresh session. -/
def run (ops : List Op) : SessionState :=
  ops.foldl step initialState

/-! ## Specification-side observers

These definitions restate, per single ledger, what the loop consults; they
are used to express the claims and are proved to match the loop. -/

/-- The effective primary mapping of a ledger: its `mapped_accounts` entry
unless absent or the sentinel. -/
def mappingOf (m : Dict String) (l : Ledger) : Option String :=
  match List.lookup l.name m with
  | some opt => if opt = "Select mapping..." then none else some opt
  | none => none

/-- The category a ledger's primary mapping routes to, if any. -/
def routedCat (m : Dict String) (l : Ledger) : Option Cat :=
  (mappingOf m l).bind (fun opt => routeCode (splitHead opt))

/-- The effective sub-mapping of a ledger: its `sub_schedule_mapping` entry
unless absent or the sentinel. -/
def subOf (sm : Dict String) (l : Ledger) : Option String :=
  let s := (List.lookup l.name sm).getD "Select sub-category..."
  if s = "Select sub-category..." then none else some s

/-- The sub-schedule item key a sub-mapping resolves to under category `c`:
the sub code with the owning category-code prefix stripped. -/
def subKeyFor (c : Cat) (subMapping : String) : String :=
  String.mk (removeAllList (catKey c ++ "_").data (splitHead subMapping).data)

/-- A ledger's category code matches a recognized keyword whenever it is
mapped at all: the region where the keyword cascade leaves no stale
`category_key` behind. -/
def wellRouted (m : Dict String) (l : Ledger) : Bool :=
  match List.lookup l.name m with
  | none => true
  | some opt => opt = "Select mapping..." || (routeCode (splitHead opt)).isSome

/-- The ledgers of a list routed to category `c` that carry a sub-mapping
resolving to item key `k0`, in list order. -/
def contributors (m sm : Dict String) (c : Cat) (k0 : String) (ledgers : List Ledger) :
    List Ledger :=
  ledgers.filter (fun l =>
    routedCat m l = some c && (subOf sm l).map (subKeyFor c) = some k0)

/-- Sum of the balances routed to category `c`, in list order. -/
def routedSum (m : Dict String) (c : Cat) (ledgers : List Ledger) : Amt :=
  ((ledgers.filter (fun l => routedCat m l = some c)).map Ledger.balance).sum

/-- The contributing-ledger list of the sub-schedule item `k0` of schedule
`key`, empty when either key is absent. -/
def slotLedgers (st : Statements) (key k0 : String) : List Ledger :=
  match List.lookup key st.subSchedules with
  | some sch =>
    match List.lookup k0 sch.items with
    | some it => it.ledgers
    | none => []
  | none => []

/-- The item keys pre-initialized under category `c`. -/
def preInitKeys (c : Cat) : List String :=
  match List.lookup (catKey c) initSubSchedules with
  | some sch => sch.items.map (fun p => p.1)
  | none => []

/-- Category totals of a result, as a map over the 14 categories. -/
def catTotals (r : Result) : Cat → Amt :=
  fun c => (r.stmts.cats c).total

/-! ## The disputed claims, stated as written -/

/-- Claim C1 as written (value-level part): looking a committed version up
by id and restoring it installs mapping, sub-mapping, AND ledger state
equal to what was committed. -/
def C1Claim : Prop :=
  ∀ (t : SessionState) (v : Version),
    t.versions.find? (fun w => w.id = v.id) = some v →
      (load_selected_version t v.id).mappedAccounts = v.mappedAccounts ∧
      (load_selected_version t v.id).subScheduleMapping = v.subScheduleMapping ∧
      (load_selected_version t v.id).tallyData = v.tallyData

/-- Claim C5 as written: permuting the ledger list yields identical
category totals (in particular, both runs succeed or fail together). -/
def C5Claim : Prop :=
  ∀ (l1 l2 : List Ledger) (m sm : Dict String) (tv : String), l1.Perm l2 →
    (computeStatements m sm (some { ledgers := l1, tallyVersion := tv })).map catTotals =
    (computeStatements m sm (some { ledgers := l2, tallyVersion := tv })).map catTotals

/-- Claim C7 as written: every ledger with a resolved category and a
non-sentinel sub-mapping whose stripped key matches no PRE-INITIALIZED
slot ends up, in the final result, with a fresh slot holding exactly its
balance and a single-entry contributing list. -/
def C7Claim : Prop :=
  ∀ (m sm : Dict String) (ledgers : List Ledger) (tv : String) (r : Result),
    computeStatements m sm (some { ledgers := ledgers, tallyVersion := tv }) = .ok r →
    ∀ l ∈ ledgers, ∀ c s, routedCat m l = some c → subOf sm l = some s →
      subKeyFor c s ∉ preInitKeys c →
      ∃ sch it, List.lookup (catKey c) r.stmts.subSchedules = some sch ∧
        List.lookup (subKeyFor c s) sch.items = some it ∧
        it.amount = l.balance ∧ it.ledgers = [l]

/-- Claim C10 as written: every call to `generate_financial_statements`
appends exactly one version, marks it current, and leaves `tally_data` and
both mapping stores unchanged. -/
def C10Claim : Prop :=
  ∀ s : SessionState, ∃ s2 v,
    generate_financial_statements s = .ok s2 ∧
    s2.versions = s.versions ++ [v] ∧ s2.currentVersion = some v.id ∧
    s2.tallyData = s.tallyData ∧ s2.mappedAccounts = s.mappedAccounts ∧
    s2.subScheduleMapping = s.subScheduleMapping

/-! ## Concrete fixtures used by witnesses and counterexamples -/

/-- A ledger whose code matches no keyword (`BS_Goodwill`). -/
def gwLedger : Ledger := { name := "Goodwill", balance := 100 }

/-- A ledger routed to Fixed Assets. -/
def machineLedger : Ledger := { name := "Machine", balance := 50 }

/-- Mapping sending `Goodwill` to the unrecognized code `BS_Goodwill`. -/
def mapGoodwillOnly : Dict String := [("Goodwill", "BS_Goodwill - Goodwill")]

/-- Mapping with `Machine` recognized and `Goodwill` unrecognized. -/
def mapMachineGoodwill : Dict String :=
  [("Machine", "BS_FixedAssets - Fixed Assets"), ("Goodwill", "BS_Goodwill - Goodwill")]

/-- Sub-mapping giving `Goodwill` a non-sentinel sub-category. -/
def subMapGoodwill : Dict String :=
  [("Goodwill", "BS_FixedAssets_LandandBuildings - Land and Buildings")]

/-- Session state for the C2 failing input. -/
def stateC2 : SessionState :=
  { mappedAccounts := mapGoodwillOnly, subScheduleMapping := subMapGoodwill,
    tallyData := some { ledgers := [gwLedger], tallyVersion := "Tally" },
    versions := [], currentVersion := none, financialStatements := none }

/-- The C6 scenario mapping. -/
def mapScenario6 : Dict String :=
  [("Capital Account", "BS_CapitalAccount - Capital Account"),
   ("Secured Loans", "BS_LongTermLoans - Long Term Loans")]

/-- The C6 scenario ledgers. -/
def ledgersScenario6 : List Ledger :=
  [{ name := "Capital Account", balance := 800000 },
   { name := "Secured Loans", balance := 150000 }]

/-- Two ledgers mapped to Fixed Assets with the same unknown sub key. -/
def mapTwoGoodwill : Dict String :=
  [("G1", "BS_FixedAssets - Fixed Assets"), ("G2", "BS_FixedAssets - Fixed Assets")]

/-- The shared unknown sub-mapping for `G1`/`G2`. -/
def subMapTwoGoodwill : Dict String :=
  [("G1", "BS_FixedAssets_Goodwill - Goodwill"), ("G2", "BS_FixedAssets_Goodwill - Goodwill")]

/-- First of the two same-sub-key ledgers. -/
def g1Ledger : Ledger := { name := "G1", balance := 10 }

/-- Second of the two same-sub-key ledgers. -/
def g2Ledger : Ledger := { name := "G2", balance := 20 }

/-- A committed version holding ledger data `T1`, used against claim C1. -/
def versionT1 : Version :=
  { id := 1, mappedAccounts := [("A", "BS_FixedAssets - Fixed Assets")],
    subScheduleMapping := [],
    tallyData := some { ledgers := [{ name := "A", balance := 7 }], tallyVersion := "T1" },
    financialStatements := mkResult initStatements }

/-- A session holding `versionT1` whose ACTIVE ledger data has since been
replaced by a different upload `T2`. -/
def stateT2 : SessionState :=
  { mappedAccounts := [], subScheduleMapping := [],
    tallyData := some { ledgers := [], tallyVersion := "T2" },
    versions := [versionT1], currentVersion := some 1, financialStatements := none }

/-- Session state for the C10/C5 witness: the C6 scenario, no versions yet. -/
def stateScenario6 : SessionState :=
  { mappedAccounts := mapScenario6, subScheduleMapping := [],
    tallyData := some { ledgers := ledgersScenario6, tallyVersion := "Tally" },
    versions := [], currentVersion := none, financialStatements := none }

/-! ## Dictionary lemmas -/

theorem lookup_dictSet_self {α : Type} (d : Dict α) (k : String) (v : α) :
    List.lookup k (dictSet d k v) = some v := by
  induction d with
  | nil => simp [dictSet, List.lookup]
  | cons p d ih =>
    obtain ⟨a, b⟩ := p
    by_cases h : a = k
    · subst h
      simp [dictSet, List.lookup]
    · have hba : (k == a) = false := beq_eq_false_iff_ne.mpr (Ne.symm h)
      simp [dictSet, h, List.lookup, hba, ih]

theorem lookup_dictSet_ne {α : Type} (d : Dict α) {k k' : String} (v : α) (h : k' ≠ k) :
    List.lookup k' (dictSet d k v) = List.lookup k' d := by
  have hk : (k' == k) = false := beq_eq_false_iff_ne.mpr h
  induction d with
  | nil => simp [dictSet, List.lookup, hk]
  | cons p d ih =>
    obtain ⟨a, b⟩ := p
    by_cases ha : a = k
    · subst ha
      simp [dictSet, List.lookup, hk]
    · simp [dictSet, ha, List.lookup, ih]

theorem lookup_append_of_none {α : Type} {d1 : Dict α} (d2 : Dict α) {k : String}
    (h : List.lookup k d1 = none) : List.lookup k (d1 ++ d2) = List.lookup k d2 := by
  induction d1 with
  | nil => simp
  | cons p d ih =>
    obtain ⟨a, b⟩ := p
    by_cases hk : (k == a) = true
    · simp [List.lookup, hk] at h
    · simp only [Bool.not_eq_true] at hk
      simp only [List.lookup, List.cons_append, hk] at h ⊢
      exact ih h

theorem lookup_append_of_some {α : Type} {d1 : Dict α} (d2 : Dict α) {k : String} {v : α}
    (h : List.lookup k d1 = some v) : List.lookup k (d1 ++ d2) = some v := by
  induction d1 with
  | nil => simp [List.lookup] at h
  | cons p d ih =>
    obtain ⟨a, b⟩ := p
    by_cases hk : (k == a) = true
    · simp only [List.lookup, List.cons_append, hk] at h ⊢
      exact h
    · simp only [Bool.not_eq_true] at hk
      simp only [List.lookup, List.cons_append, hk] at h ⊢
      exact ih h

/-- `catKey` is injective: the 14 category keys are pairwise distinct. -/
theorem catKey_injective : ∀ c c' : Cat, catKey c = catKey c' → c = c' := by
  decide

/-! ## Basic facts about the ledger loop -/

theorem processLedger_not_mapped (m sm : Dict String) (l : Ledger)
    (h : List.lookup l.name m = none) (acc : Statements × Option String) :
    processLedger m sm acc l = .ok acc := by
  simp [processLedger, h]

/-- With an empty primary mapping, every ledger is skipped. -/
theorem foldlM_empty_map (sm : Dict String) (acc : Statements × Option String)
    (ledgers : List Ledger) :
    List.foldlM (processLedger [] sm) acc ledgers = .ok acc := by
  induction ledgers generalizing acc with
  | nil => rfl
  | cons l t ih =>
    rw [List.foldlM_cons, processLedger_not_mapped [] sm l rfl acc]
    exact ih acc

/-- The ledger loop with an empty primary mapping leaves the initial state. -/
theorem foldLedgers_empty_map (sm : Dict String) (td : Option TallyData) :
    foldLedgers [] sm td = .ok (initStatements, none) := by
  cases td with
  | none => rfl
  | some t => exact foldlM_empty_map sm _ t.ledgers

/-- With an empty primary mapping the demo path runs and always raises
`KeyError('LongtermInvestments')`: the demo writer indexes
`items['LongtermInvestments']` but the pre-initialized key is
`'Long-termInvestments'` (whitespace-only stripping keeps the hyphen). -/
theorem computeStatements_empty_mapping (sm : Dict String) (td : Option TallyData) :
    computeStatements [] sm td = .error (.keyError "LongtermInvestments") := by
  unfold computeStatements
  rw [foldLedgers_empty_map sm td]
  rfl

/-- Structure of a successful `generate_financial_statements` call. -/
theorem generate_ok_parts {s s2 : SessionState}
    (h : generate_financial_statements s = .ok s2) :
    ∃ r, computeStatements s.mappedAccounts s.subScheduleMapping s.tallyData = .ok r ∧
      s2 = { s with
        versions := s.versions ++ [commitVersion s r],
        currentVersion := some (s.versions.length + 1),
        financialStatements := some r } := by
  unfold generate_financial_statements at h
  cases hc : computeStatements s.mappedAccounts s.subScheduleMapping s.tallyData with
  | error e =>
    rw [hc] at h
    exact Except.noConfusion h
  | ok r =>
    rw [hc] at h
    refine ⟨r, rfl, ?_⟩
    cases h
    rfl

/-- Every successful result is `mkResult` of its own statement tree. -/
theorem computeStatements_ok_mkResult {m sm : Dict String} {td : Option TallyData} {r : Result}
    (h : computeStatements m sm td = .ok r) : r = mkResult r.stmts := by
  unfold computeStatements at h
  cases hf : foldLedgers m sm td with
  | error e =>
    rw [hf] at h
    exact Except.noConfusion h
  | ok st =>
    rw [hf] at h
    dsimp only at h
    by_cases hm : m = []
    · rw [if_pos hm] at h
      cases hd : demoPopulate st.1.subSchedules with
      | error e =>
        rw [hd] at h
        exact Except.noConfusion h
      | ok ss =>
        rw [hd] at h
        cases h
        rfl
    · rw [if_neg hm] at h
      cases h
      rfl

/-! ## Claim C2 -/

/-- C2 (code bug): a ledger whose `BS_`-prefixed code matches no keyword
does NOT pass through aggregation silently when it has a non-sentinel
sub-mapping: processed first, it raises `NameError` (`category_key` is
unbound); processed after a keyword-matched ledger, its balance is added
to the PREVIOUS ledger's category sub-schedule, so it does contribute to a
slot.  Its balance is indeed added to no category total. -/
theorem c2_unmatched_keyword_eval :
    computeStatements mapGoodwillOnly subMapGoodwill
        (some { ledgers := [gwLedger], tallyVersion := "Tally" })
      = .error (.nameError "category_key") ∧
    ∃ r, computeStatements mapMachineGoodwill subMapGoodwill
        (some { ledgers := [machineLedger, gwLedger], tallyVersion := "Tally" }) = .ok r ∧
      slotLedgers r.stmts "BS_FixedAssets" "LandandBuildings" = [gwLedger] ∧
      (r.stmts.cats Cat.fixedAssets).total = 0 + machineLedger.balance := by
  exact ⟨rfl, _, rfl, rfl, rfl⟩

/-! ## Claim C3 -/

/-- C3 (code bug): whenever the primary mapping store is empty, the engine
does not return the demonstration dataset for any ledger list — it raises
`KeyError('LongtermInvestments')` in the demo-population loop, because the
pre-initialized Investments item keys keep the hyphen of
`"Long-term Investments"` while the demo writer indexes the hyphen-free
key. -/
theorem c3_empty_mapping_eval (ledgers : List Ledger) (sm : Dict String) (tv : String) :
    computeStatements [] sm (some { ledgers := ledgers, tallyVersion := tv })
      = .error (.keyError "LongtermInvestments") :=
  computeStatements_empty_mapping sm _

/-! ## Claim C10 -/

/-- C10 (counterexample): not every call to `generate_financial_statements`
commits a version — on a fresh session (empty mapping store) it raises and
appends nothing. -/
theorem c10_counterexample : ¬ C10Claim := by
  intro h
  obtain ⟨s2, v, hok, -⟩ := h initialState
  rw [show generate_financial_statements initialState
      = .error (.keyError "LongtermInvestments") from rfl] at hok
  exact Except.noConfusion hok

/-- C10 (amended): every call of `generate_financial_statements` that
completes without raising appends exactly one new version with
`id = count(existing versions) + 1`, marks it current, snapshots the
mapping stores and ledger data into it, and leaves `tally_data` and both
mapping stores unchanged. -/
theorem c10_generate_commits_one (s s2 : SessionState)
    (h : generate_financial_statements s = .ok s2) :
    ∃ v : Version,
      s2.versions = s.versions ++ [v] ∧ v.id = s.versions.length + 1 ∧
      s2.currentVersion = some v.id ∧
      v.mappedAccounts = s.mappedAccounts ∧ v.subScheduleMapping = s.subScheduleMapping ∧
      v.tallyData = s.tallyData ∧
      s2.tallyData = s.tallyData ∧ s2.mappedAccounts = s.mappedAccounts ∧
      s2.subScheduleMapping = s.subScheduleMapping := by
  obtain ⟨r, -, rfl⟩ := generate_ok_parts h
  exact ⟨_, rfl, rfl, rfl, rfl, rfl, rfl, rfl, rfl, rfl⟩

/-- C10 witness: on the concrete scenario session the call succeeds and
commits version 1. -/
theorem c10_witness :
    ∃ s2 v, generate_financial_statements stateScenario6 = .ok s2 ∧
      s2.versions = stateScenario6.versions ++ [v] ∧ v.id = 1 ∧
      s2.tallyData = stateScenario6.tallyData ∧
      s2.mappedAccounts = stateScenario6.mappedAccounts := by
  obtain ⟨v, h1, h2, h3, h4, h5, h6, h7, h8, h9⟩ :=
    c10_generate_commits_one stateScenario6 _ rfl
  exact ⟨_, v, rfl, h1, h2, h7, h8⟩

/-! ## Claim C1 -/

/-- C1 (counterexample): restoring a committed version does NOT re-install
the committed ledger state — `tally_data` keeps its current value.  In
`stateT2` the archived version holds ledger export `T1` but the active
ledger data has since been replaced by `T2`; after restore the active
ledger data is still `T2`. -/
theorem c1_counterexample : ¬ C1Claim := by
  intro h
  obtain ⟨-, -, h3⟩ := h stateT2 versionT1 rfl
  rw [show (load_selected_version stateT2 versionT1.id).tallyData
      = some { ledgers := [], tallyVersion := "T2" } from rfl] at h3
  simp [versionT1] at h3

/-- C1 (amended): restoring a version found by id installs the mapping and
sub-mapping snapshots and the stored aggregation result, marks the version
current, leaves `tally_data` untouched (the committed ledger state is NOT
restored), and leaves the archive itself unchanged. -/
theorem c1_restore_installs (t : SessionState) (v : Version)
    (hfind : t.versions.find? (fun w => w.id = v.id) = some v) :
    (load_selected_version t v.id).mappedAccounts = v.mappedAccounts ∧
    (load_selected_version t v.id).subScheduleMapping = v.subScheduleMapping ∧
    (load_selected_version t v.id).financialStatements = some v.financialStatements ∧
    (load_selected_version t v.id).currentVersion = some v.id ∧
    (load_selected_version t v.id).tallyData = t.tallyData ∧
    (load_selected_version t v.id).versions = t.versions := by
  unfold load_selected_version
  rw [hfind]
  exact ⟨rfl, rfl, rfl, rfl, rfl, rfl⟩

/-- C1 witness: the amended restore behaviour at the concrete session. -/
theorem c1_witness :
    (load_selected_version stateT2 1).mappedAccounts = versionT1.mappedAccounts ∧
    (load_selected_version stateT2 1).tallyData = stateT2.tallyData ∧
    (load_selected_version stateT2 1).versions = stateT2.versions := by
  obtain ⟨h1, -, -, -, h5, h6⟩ := c1_restore_installs stateT2 versionT1 rfl
  exact ⟨h1, h5, h6⟩

/-! ## Claim C8 -/

theorem range'_snoc (s n : ℕ) : List.range' s (n + 1) = List.range' s n ++ [s + n] := by
  simpa using @List.range'_concat 1 s n

/-- Any single operation only ever extends the versions list. -/
theorem step_versions_extend (s : SessionState) (op : Op) :
    ∃ t, (step s op).versions = s.versions ++ t := by
  cases op with
  | setTallyData td => exact ⟨[], by simp [step]⟩
  | setMapping n o => exact ⟨[], by simp [step]⟩
  | setSubMapping n o => exact ⟨[], by simp [step]⟩
  | setMappings m sm => exact ⟨[], by simp [step]⟩
  | generateStatements =>
    cases hg : generate_financial_statements s with
    | ok s2 =>
      obtain ⟨r, -, rfl⟩ := generate_ok_parts hg
      exact ⟨[commitVersion s r], by simp [step, hg]⟩
    | error e => exact ⟨[], by simp [step, hg]⟩
  | restore i =>
    cases hfind : s.versions.find? (fun v => v.id = i) with
    | some v => exact ⟨[], by simp [step, load_selected_version, hfind]⟩
    | none => exact ⟨[], by simp [step, load_selected_version, hfind]⟩

/-- One operation preserves "the archived ids are exactly 1..n in order". -/
theorem step_preserves_ids (s : SessionState) (op : Op)
    (h : s.versions.map Version.id = List.range' 1 s.versions.length) :
    (step s op).versions.map Version.id = List.range' 1 (step s op).versions.length := by
  cases op with
  | setTallyData td => exact h
  | setMapping n o => exact h
  | setSubMapping n o => exact h
  | setMappings m sm => exact h
  | generateStatements =>
    cases hg : generate_financial_statements s with
    | ok s2 =>
      obtain ⟨r, -, rfl⟩ := generate_ok_parts hg
      simp only [step, hg]
      rw [List.map_append, h, List.length_append]
      simp only [List.length_singleton, List.map_cons, List.map_nil]
      rw [range'_snoc]
      simp [commitVersion, Nat.add_comm]
    | error e => simpa [step, hg] using h
  | restore i =>
    cases hfind : s.versions.find? (fun v => v.id = i) with
    | some v => simpa [step, load_selected_version, hfind] using h
    | none => simpa [step, load_selected_version, hfind] using h

/-- In every reachable state the archived ids are exactly `1..n`. -/
theorem run_ids (ops : List Op) :
    (run ops).versions.map Version.id = List.range' 1 (run ops).versions.length := by
  suffices h : ∀ s : SessionState,
      s.versions.map Version.id = List.range' 1 s.versions.length →
      (ops.foldl step s).versions.map Version.id
        = List.range' 1 (ops.foldl step s).versions.length from h initialState rfl
  induction ops with
  | nil => exact fun s hs => hs
  | cons op t ih => exact fun s hs => ih _ (step_preserves_ids s op hs)

/-- C8: every commit allocates `id = count + 1` and appends; in every
reachable state the archived ids are exactly `1..n` in list order (hence
strictly increasing, never reused), and no operation mutates or removes a
previously archived version entry — each operation at most appends. -/
theorem c8_version_archive :
    (∀ ops : List Op, (run ops).versions.map Version.id
        = List.range' 1 (run ops).versions.length) ∧
    (∀ (s : SessionState) (op : Op), ∃ t, (step s op).versions = s.versions ++ t) ∧
    (∀ (s s2 : SessionState), generate_financial_statements s = .ok s2 →
      ∃ v, s2.versions = s.versions ++ [v] ∧ v.id = s.versions.length + 1) :=
  ⟨run_ids, step_versions_extend, fun s _ h => by
    obtain ⟨r, -, rfl⟩ := generate_ok_parts h
    exact ⟨commitVersion s r, rfl, rfl⟩⟩

/-- C8 witness: a concrete three-operation session ends with ids `[1]`,
and the concrete commit allocates id 1. -/
theorem c8_witness :
    ((run [Op.setTallyData (some { ledgers := ledgersScenario6, tallyVersion := "Tally" }),
           Op.setMappings mapScenario6 [], Op.generateStatements]).versions.map Version.id
      = [1]) ∧
    ∃ s2 v, generate_financial_statements stateScenario6 = .ok s2 ∧
      s2.versions = stateScenario6.versions ++ [v] ∧ v.id = 1 := by
  constructor
  · exact (c8_version_archive.1 _).trans rfl
  · obtain ⟨v, h1, h2⟩ := c8_version_archive.2.2 stateScenario6 _ rfl
    exact ⟨_, v, rfl, h1, h2⟩

/-! ## Claim C6 -/

/-- C6: every successful aggregation result carries exactly one derived
note (`note1_capital`), computed as `opening = capitalTotal * 0.8` and
`additions = capitalTotal * 0.2`; and on the scenario ledgers
(Capital Account 800000 → `BS_CapitalAccount`, Secured Loans 150000 →
`BS_LongTermLoans`, no sub-mappings) the capital total is 800000, the
long-term-loans total 150000, and the note is 640000 / 160000. -/
theorem c6_capital_note :
    (∀ (m sm : Dict String) (td : Option TallyData) (r : Result),
        computeStatements m sm td = .ok r →
        r.notes = [("note1_capital",
          { openingBalance := (r.stmts.cats Cat.capital).total * (0.8 : ℚ),
            additions := (r.stmts.cats Cat.capital).total * (0.2 : ℚ) })]) ∧
    (∃ r, computeStatements mapScenario6 []
        (some { ledgers := ledgersScenario6, tallyVersion := "Tally" }) = .ok r ∧
      (r.stmts.cats Cat.capital).total = 800000 ∧
      (r.stmts.cats Cat.longTermLoans).total = 150000 ∧
      r.notes = [("note1_capital", { openingBalance := 640000, additions := 160000 })]) := by
  constructor
  · intro m sm td r h
    conv_lhs => rw [computeStatements_ok_mkResult h]
    rfl
  · refine ⟨_, rfl, ?_, ?_, ?_⟩
    · show (0 : ℚ) + 800000 = 800000
      norm_num
    · show (0 : ℚ) + 150000 = 150000
      norm_num
    · show [("note1_capital",
          Note.mk (((0 : ℚ) + 800000) * 0.8) (((0 : ℚ) + 800000) * 0.2))]
        = [("note1_capital", Note.mk 640000 160000)]
      norm_num

/-- C6 witness: the general note law applied at the scenario input. -/
theorem c6_witness :
    ∃ r, computeStatements mapScenario6 []
        (some { ledgers := ledgersScenario6, tallyVersion := "Tally" }) = .ok r ∧
      r.notes = [("note1_capital",
        { openingBalance := (r.stmts.cats Cat.capital).total * (0.8 : ℚ),
          additions := (r.stmts.cats Cat.capital).total * (0.2 : ℚ) })] := by
  have h := c6_capital_note.1 mapScenario6 []
    (some { ledgers := ledgersScenario6, tallyVersion := "Tally" }) _ rfl
  exact ⟨_, rfl, h⟩

/-! ## Claim C4 -/

/-- C4: when strategy 1 finds `n ≥ 1` display-name tags and `m ≥ 1`
closing-balance tags, it returns exactly `min n m` records, pairing the
i-th stripped name with the i-th stripped amount; each balance is the
numeric value of the amount string after stripping thousands separators,
and zero when the stripped string is non-numeric (the function is total —
nothing is raised). -/
theorem c4_strategy1 (names amounts : List String) (hn : names ≠ []) (ha : amounts ≠ []) :
    (parse_tally_strategy1 names amounts).length = min names.length amounts.length ∧
    ∀ i (hi : i < (parse_tally_strategy1 names amounts).length),
      ((parse_tally_strategy1 names amounts).get ⟨i, hi⟩).name = pyStrip (names.getD i "") ∧
      ((parse_tally_strategy1 names amounts).get ⟨i, hi⟩).balance =
        match pyFloat (String.mk (removeAllList ",".data
            (pyStrip (amounts.getD i "")).data)) with
        | some q => q
        | none => 0 := by
  have hcond : names ≠ [] ∧ amounts ≠ [] := ⟨hn, ha⟩
  have hunf : parse_tally_strategy1 names amounts
      = (List.range (min names.length amounts.length)).map (fun i =>
          { name := pyStrip (names.getD i ""),
            balance := parseAmount (pyStrip (amounts.getD i "")) }) := by
    rw [parse_tally_strategy1, if_pos hcond]
  constructor
  · rw [hunf]
    simp
  · intro i hi
    constructor
    · simp only [List.get_eq_getElem, hunf, List.getElem_map, List.getElem_range]
    · simp only [List.get_eq_getElem, hunf, List.getElem_map, List.getElem_range]
      show parseAmount (pyStrip (amounts.getD i "")) = _
      unfold parseAmount pyFloat
      cases pyFloatParts (String.mk (removeAllList ",".data
          (pyStrip (amounts.getD i "")).data)) <;> rfl

/-- C4 witness: three names against five amounts yield exactly three
records; the second record pairs `Bank` with `2.50`, parsed to `5/2`. -/
theorem c4_witness :
    (parse_tally_strategy1 ["Cash", "Bank", "Loan"]
        ["1,000", "2.50", "abc", "7", "8"]).length = 3 ∧
    ∃ hi : 1 < (parse_tally_strategy1 ["Cash", "Bank", "Loan"]
        ["1,000", "2.50", "abc", "7", "8"]).length,
      ((parse_tally_strategy1 ["Cash", "Bank", "Loan"]
          ["1,000", "2.50", "abc", "7", "8"]).get ⟨1, hi⟩).name = "Bank" ∧
      ((parse_tally_strategy1 ["Cash", "Bank", "Loan"]
          ["1,000", "2.50", "abc", "7", "8"]).get ⟨1, hi⟩).balance = 5 / 2 := by
  have h := c4_strategy1 ["Cash", "Bank", "Loan"] ["1,000", "2.50", "abc", "7", "8"]
    (by decide) (by decide)
  have hlen : (parse_tally_strategy1 ["Cash", "Bank", "Loan"]
      ["1,000", "2.50", "abc", "7", "8"]).length = 3 := h.1.trans (by decide)
  have hi : 1 < (parse_tally_strategy1 ["Cash", "Bank", "Loan"]
      ["1,000", "2.50", "abc", "7", "8"]).length := by
    rw [hlen]
    decide
  obtain ⟨hname, hbal⟩ := h.2 1 hi
  refine ⟨hlen, hi, hname.trans (by decide), ?_⟩
  rw [hbal]
  rw [show String.mk (removeAllList ",".data
      (pyStrip ((["1,000", "2.50", "abc", "7", "8"]).getD 1 "")).data) = "2.50" from by decide]
  rw [pyFloat, show pyFloatParts "2.50" = some ⟨false, 2, 50, 2, 0⟩ from by decide]
  show (if false then (-1 : ℚ) else 1) * (((2 : ℕ) : ℚ) + ((50 : ℕ) : ℚ) / (10 : ℚ) ^ (2 : ℕ))
      * (10 : ℚ) ^ (0 : ℤ) = 5 / 2
  norm_num

/-! ## Claim C7 -/

theorem slotLedgers_of_lookup {st : Statements} {key k0 : String} {sch : Schedule}
    {it : SubItem} (h1 : List.lookup key st.subSchedules = some sch)
    (h2 : List.lookup k0 sch.items = some it) :
    slotLedgers st key k0 = it.ledgers := by
  unfold slotLedgers
  rw [h1]
  dsimp only
  rw [h2]

/-- C7 (counterexample): when TWO ledgers carry the same unknown sub key,
the second one does not get a fresh slot seeded with exactly its balance
and a single-entry list — the slot accumulates both. -/
theorem c7_counterexample : ¬ C7Claim := by
  intro h
  have hmap : (computeStatements mapTwoGoodwill subMapTwoGoodwill
      (some { ledgers := [g1Ledger, g2Ledger], tallyVersion := "Tally" })).map
        (fun r => slotLedgers r.stmts (catKey Cat.fixedAssets)
          (subKeyFor Cat.fixedAssets "BS_FixedAssets_Goodwill - Goodwill"))
      = .ok [g1Ledger, g2Ledger] := rfl
  cases hok : computeStatements mapTwoGoodwill subMapTwoGoodwill
      (some { ledgers := [g1Ledger, g2Ledger], tallyVersion := "Tally" }) with
  | error e =>
    rw [hok] at hmap
    exact Except.noConfusion hmap
  | ok r =>
    rw [hok] at hmap
    simp only [Except.map] at hmap
    have hslot : slotLedgers r.stmts (catKey Cat.fixedAssets)
        (subKeyFor Cat.fixedAssets "BS_FixedAssets_Goodwill - Goodwill")
        = [g1Ledger, g2Ledger] := by
      injection hmap
    obtain ⟨sch, it, h1, h2, -, h4⟩ := h mapTwoGoodwill subMapTwoGoodwill
      [g1Ledger, g2Ledger] "Tally" r hok g2Ledger (by decide) Cat.fixedAssets
      "BS_FixedAssets_Goodwill - Goodwill" (by decide) (by decide) (by decide)
    have hlink := slotLedgers_of_lookup h1 h2
    rw [h4, hslot] at hlink
    exact absurd hlink (by decide)

/-- C7 (amended): processing a single ledger with a resolved category and a
non-sentinel sub-mapping whose stripped key matches no item currently
present under that category (pre-initialized or created earlier in the
run) appends a fresh slot under that category, named by the best-available
display name, seeded with exactly that ledger's balance and a single-entry
contributing list — the balance is not dropped. -/
theorem c7_new_slot (m sm : Dict String) (st : Statements) (key : Option String)
    (l : Ledger) (c : Cat) (s : String) {sch : Schedule}
    (hroute : routedCat m l = some c) (hsub : subOf sm l = some s)
    (hsch : List.lookup (catKey c) st.subSchedules = some sch)
    (hmiss : List.lookup (subKeyFor c s) sch.items = none) :
    ∃ st2 sch2, processLedger m sm (st, key) l = .ok (st2, some (catKey c)) ∧
      List.lookup (catKey c) st2.subSchedules = some sch2 ∧
      List.lookup (subKeyFor c s) sch2.items = some
        { name := bestName s (subKeyFor c s), amount := l.balance, ledgers := [l] } ∧
      sch2.items = sch.items ++ [(subKeyFor c s,
        { name := bestName s (subKeyFor c s), amount := l.balance, ledgers := [l] })] ∧
      (st2.cats c).total = (st.cats c).total + l.balance := by
  unfold routedCat mappingOf at hroute
  cases hm : List.lookup l.name m with
  | none =>
    rw [hm] at hroute
    dsimp only at hroute
    exact Option.noConfusion hroute
  | some opt =>
    rw [hm] at hroute
    dsimp only at hroute
    by_cases hopt : opt = "Select mapping..."
    · rw [if_pos hopt] at hroute
      simp only [Option.none_bind] at hroute
      exact Option.noConfusion hroute
    · rw [if_neg hopt] at hroute
      simp only [Option.some_bind] at hroute
      unfold subOf at hsub
      by_cases hs0 : (List.lookup l.name sm).getD "Select sub-category..."
          = "Select sub-category..."
      · rw [if_pos hs0] at hsub
        exact Option.noConfusion hsub
      · rw [if_neg hs0] at hsub
        have hseq : (List.lookup l.name sm).getD "Select sub-category..." = s :=
          Option.some.inj hsub
        have hssent : s ≠ "Select sub-category..." := hseq ▸ hs0
        have hpres : (addTotal st c l.balance).subSchedules = st.subSchedules := rfl
        let newSch : Schedule := { sch with items := sch.items ++ [(subKeyFor c s,
          { name := bestName s (subKeyFor c s), amount := l.balance, ledgers := [l] })] }
        let st2 : Statements := { cats := (addTotal st c l.balance).cats, subSchedules := dictSet st.subSchedules (catKey c) newSch }
        refine ⟨st2, newSch, ?_, ?_, ?_, ?_, ?_⟩
        · unfold processLedger
          rw [hm]
          dsimp only
          rw [if_neg hopt, hroute]
          dsimp only
          rw [hseq, if_neg hssent]
          rw [hpres, hsch]
          unfold updateSub
          rw [hpres, hsch]
          simp only [Option.isSome_some, if_true]
          rw [show List.lookup (String.mk (removeAllList (catKey c ++ "_").data
              (splitHead s).data)) sch.items = none from hmiss]
          rfl
        · exact lookup_dictSet_self _ _ _
        · show List.lookup (subKeyFor c s) (sch.items ++ [(subKeyFor c s,
            { name := bestName s (subKeyFor c s), amount := l.balance, ledgers := [l] })])
            = _
          rw [lookup_append_of_none _ hmiss]
          simp [List.lookup]
        · rfl
        · simp [addTotal]

/-- C7 witness: the first `Goodwill` ledger creates the fresh slot under
Fixed Assets with its own balance and single-entry list. -/
theorem c7_witness :
    ∃ st2 sch2,
      processLedger mapTwoGoodwill subMapTwoGoodwill (initStatements, none) g1Ledger
        = .ok (st2, some (catKey Cat.fixedAssets)) ∧
      List.lookup (catKey Cat.fixedAssets) st2.subSchedules = some sch2 ∧
      List.lookup (subKeyFor Cat.fixedAssets "BS_FixedAssets_Goodwill - Goodwill") sch2.items
        = some { name := "Goodwill", amount := g1Ledger.balance, ledgers := [g1Ledger] } := by
  obtain ⟨st2, sch2, h1, h2, h3, -, -⟩ := c7_new_slot mapTwoGoodwill subMapTwoGoodwill
    initStatements none g1Ledger Cat.fixedAssets "BS_FixedAssets_Goodwill - Goodwill"
    (by decide) (by decide) rfl (by decide)
  refine ⟨st2, sch2, h1, h2, ?_⟩
  rw [h3, show bestName "BS_FixedAssets_Goodwill - Goodwill"
      (subKeyFor Cat.fixedAssets "BS_FixedAssets_Goodwill - Goodwill")
      = "Goodwill" from by decide]

/-! ## Claim C5 -/

/-- C5 (counterexample): permuting the ledger list is NOT total-preserving
in general — with `Goodwill` (unmatched keyword, non-sentinel sub-mapping)
before `Machine` the run raises `NameError`, while the swapped order
completes, so the two runs do not produce identical category totals. -/
theorem c5_counterexample : ¬ C5Claim := by
  intro h
  have hp : List.Perm [gwLedger, machineLedger] [machineLedger, gwLedger] :=
    List.Perm.swap machineLedger gwLedger []
  have h2 := h [gwLedger, machineLedger] [machineLedger, gwLedger]
    mapMachineGoodwill subMapGoodwill "Tally" hp
  rw [show computeStatements mapMachineGoodwill subMapGoodwill
      (some { ledgers := [gwLedger, machineLedger], tallyVersion := "Tally" })
      = .error (.nameError "category_key") from rfl] at h2
  obtain ⟨r, hr⟩ : ∃ r, computeStatements mapMachineGoodwill subMapGoodwill
      (some { ledgers := [machineLedger, gwLedger], tallyVersion := "Tally" })
      = .ok r := ⟨_, rfl⟩
  rw [hr] at h2
  simp only [Except.map] at h2
  exact Except.noConfusion h2

/-- `addTotal` changes exactly the routed category's total. -/
theorem addTotal_total (st : Statements) (c0 c : Cat) (b : Amt) :
    ((addTotal st c0 b).cats c).total
      = (st.cats c).total + (if c0 = c then b else 0) := by
  by_cases h : c0 = c
  · subst h
    simp [addTotal]
  · simp [addTotal, Function.update_noteq (Ne.symm h), h]

/-- `updateSub` never changes the category totals. -/
theorem updateSub_cats (st : Statements) (key s : String) (l : Ledger) :
    (updateSub st key s l).cats = st.cats := by
  unfold updateSub
  cases List.lookup key st.subSchedules <;> rfl

/-- `updateSub` on one schedule leaves every other schedule's slots alone. -/
theorem slotLedgers_updateSub_ne (st : Statements) {key key' : String} (hkk : key' ≠ key)
    (s : String) (l : Ledger) (k0 : String) :
    slotLedgers (updateSub st key s l) key' k0 = slotLedgers st key' k0 := by
  unfold updateSub
  cases h : List.lookup key st.subSchedules with
  | none => rfl
  | some sch =>
    unfold slotLedgers
    dsimp only
    rw [lookup_dictSet_ne _ _ hkk]

/-- `updateSub` keeps every schedule key present. -/
theorem updateSub_lookup_isSome (st : Statements) (key s : String) (l : Ledger)
    (key' : String) (h : (List.lookup key' st.subSchedules).isSome = true) :
    (List.lookup key' (updateSub st key s l).subSchedules).isSome = true := by
  unfold updateSub
  cases hl : List.lookup key st.subSchedules with
  | none => exact h
  | some sch =>
    dsimp only
    by_cases hk : key' = key
    · subst hk
      rw [lookup_dictSet_self]
      rfl
    · rw [lookup_dictSet_ne _ _ hk]
      exact h

/-- `updateSub` appends the ledger to exactly the resolved item key's
contributing list (creating the slot if needed) and leaves other keys. -/
theorem slotLedgers_updateSub_self (st : Statements) {key : String} {sch : Schedule}
    (hsch : List.lookup key st.subSchedules = some sch) (s : String) (l : Ledger)
    (k0 kk : String)
    (hkk : kk = String.mk (removeAllList (key ++ "_").data (splitHead s).data)) :
    slotLedgers (updateSub st key s l) key k0 =
      slotLedgers st key k0 ++ (if k0 = kk then [l] else []) := by
  unfold updateSub
  rw [hsch]
  dsimp only
  rw [← hkk]
  unfold slotLedgers
  rw [hsch, lookup_dictSet_self]
  dsimp only
  cases hit : List.lookup kk sch.items with
  | some it =>
    dsimp only
    by_cases hk : k0 = kk
    · subst hk
      rw [lookup_dictSet_self, hit, if_pos rfl]
    · rw [lookup_dictSet_ne _ _ hk, if_neg hk, List.append_nil]
  | none =>
    dsimp only
    by_cases hk : k0 = kk
    · subst hk
      rw [lookup_append_of_none _ hit, hit, if_pos rfl]
      simp [List.lookup]
    · have hbk : (k0 == kk) = false := beq_eq_false_iff_ne.mpr hk
      cases hv : List.lookup k0 sch.items with
      | some v =>
        rw [lookup_append_of_some _ hv, if_neg hk, List.append_nil]
      | none =>
        rw [lookup_append_of_none _ hv, if_neg hk, List.append_nil]
        simp [List.lookup, hbk]

/-- One well-routed loop iteration: it never raises, adds the balance to
exactly the routed category total, appends the ledger to exactly its
resolved slot (when a non-sentinel sub-mapping exists), and keeps every
schedule key present. -/
theorem processLedger_wellRouted_step (m sm : Dict String) (acc : Statements × Option String)
    (l : Ledger) (hw : wellRouted m l = true)
    (hacc : ∀ c : Cat, (List.lookup (catKey c) acc.1.subSchedules).isSome = true) :
    ∃ st2 key2, processLedger m sm acc l = .ok (st2, key2) ∧
      (∀ c : Cat, (st2.cats c).total = (acc.1.cats c).total +
        (if routedCat m l = some c then l.balance else 0)) ∧
      (∀ (c : Cat) (k0 : String), slotLedgers st2 (catKey c) k0 =
        slotLedgers acc.1 (catKey c) k0 ++
          (if routedCat m l = some c ∧ (subOf sm l).map (subKeyFor c) = some k0
            then [l] else [])) ∧
      (∀ c : Cat, (List.lookup (catKey c) st2.subSchedules).isSome = true) := by
  unfold wellRouted at hw
  cases hm : List.lookup l.name m with
  | none =>
    have hr : routedCat m l = none := by
      unfold routedCat mappingOf
      rw [hm]
      rfl
    refine ⟨acc.1, acc.2, ?_, ?_, ?_, hacc⟩
    · unfold processLedger
      rw [hm]
    · intro c
      simp [hr]
    · intro c k0
      simp [hr]
  | some opt =>
    rw [hm] at hw
    dsimp only at hw
    by_cases hopt : opt = "Select mapping..."
    · have hr : routedCat m l = none := by
        unfold routedCat mappingOf
        rw [hm]
        dsimp only
        rw [if_pos hopt]
        rfl
      refine ⟨acc.1, acc.2, ?_, ?_, ?_, hacc⟩
      · unfold processLedger
        rw [hm]
        dsimp only
        rw [if_pos hopt]
      · intro c
        simp [hr]
      · intro c k0
        simp [hr]
    · have hws : (routeCode (splitHead opt)).isSome = true := by
        simp [hopt] at hw
        exact hw
      obtain ⟨c0, hr0⟩ := Option.isSome_iff_exists.mp hws
      have hrc : routedCat m l = some c0 := by
        unfold routedCat mappingOf
        rw [hm]
        dsimp only
        rw [if_neg hopt]
        simpa using hr0
      by_cases hssent : (List.lookup l.name sm).getD "Select sub-category..."
          = "Select sub-category..."
      · have hsubn : subOf sm l = none := by
          unfold subOf
          rw [if_pos hssent]
        refine ⟨addTotal acc.1 c0 l.balance, some (catKey c0), ?_, ?_, ?_, hacc⟩
        · unfold processLedger
          rw [hm]
          dsimp only
          rw [if_neg hopt, hr0]
          dsimp only
          rw [if_pos hssent]
        · intro c
          rw [addTotal_total, hrc]
          simp only [Option.some.injEq]
        · intro c k0
          rw [hrc, hsubn]
          rw [if_neg ?hc1]
          case hc1 =>
            rintro ⟨-, hmapp⟩
            simp at hmapp
          rw [List.append_nil]
          rfl
      · have hsubs : subOf sm l = some ((List.lookup l.name sm).getD "Select sub-category...") := by
          unfold subOf
          rw [if_neg hssent]
        obtain ⟨sch, hsch⟩ := Option.isSome_iff_exists.mp (hacc c0)
        refine ⟨updateSub (addTotal acc.1 c0 l.balance) (catKey c0)
            ((List.lookup l.name sm).getD "Select sub-category...") l,
          some (catKey c0), ?_, ?_, ?_, ?_⟩
        · unfold processLedger
          rw [hm]
          dsimp only
          rw [if_neg hopt, hr0]
          dsimp only
          rw [if_neg hssent]
          rw [show (List.lookup (catKey c0)
              (addTotal acc.1 c0 l.balance).subSchedules).isSome = true from hacc c0]
          rfl
        · intro c
          rw [show (updateSub (addTotal acc.1 c0 l.balance) (catKey c0)
              ((List.lookup l.name sm).getD "Select sub-category...") l).cats
              = (addTotal acc.1 c0 l.balance).cats from updateSub_cats _ _ _ _]
          rw [addTotal_total, hrc]
          simp only [Option.some.injEq]
        · intro c k0
          by_cases hc : c = c0
          · subst hc
            rw [slotLedgers_updateSub_self (addTotal acc.1 c l.balance) hsch _ l k0
              (subKeyFor c ((List.lookup l.name sm).getD "Select sub-category...")) rfl]
            by_cases hk : k0
                = subKeyFor c ((List.lookup l.name sm).getD "Select sub-category...")
            · rw [if_pos hk, if_pos ?hcpos]
              case hcpos =>
                refine ⟨hrc, ?_⟩
                rw [hsubs, Option.map_some', hk]
              rfl
            · rw [if_neg hk, if_neg ?hcneg]
              case hcneg =>
                rintro ⟨-, hmapp⟩
                rw [hsubs, Option.map_some'] at hmapp
                exact hk (Option.some.inj hmapp).symm
              rfl
          · have hne : catKey c ≠ catKey c0 := fun he => hc (catKey_injective c c0 he)
            rw [slotLedgers_updateSub_ne _ hne]
            rw [hrc]
            rw [if_neg ?hcne2]
            case hcne2 =>
              rintro ⟨he, -⟩
              exact hc (Option.some.inj he).symm
            rw [List.append_nil]
            rfl
        · intro c
          exact updateSub_lookup_isSome _ _ _ _ _ (hacc c)

/-- The whole well-routed loop: it never raises, each category total grows
by the sum of the balances routed there, and each slot's contributing list
is extended by exactly the contributing ledgers, in input order. -/
theorem foldlM_wellRouted (m sm : Dict String) (ledgers : List Ledger)
    (hw : ∀ l ∈ ledgers, wellRouted m l = true) :
    ∀ acc : Statements × Option String,
      (∀ c : Cat, (List.lookup (catKey c) acc.1.subSchedules).isSome = true) →
      ∃ st2 key2, List.foldlM (processLedger m sm) acc ledgers = .ok (st2, key2) ∧
        (∀ c, (st2.cats c).total = (acc.1.cats c).total + routedSum m c ledgers) ∧
        (∀ c k0, slotLedgers st2 (catKey c) k0
          = slotLedgers acc.1 (catKey c) k0 ++ contributors m sm c k0 ledgers) := by
  induction ledgers with
  | nil =>
    intro acc hacc
    exact ⟨acc.1, acc.2, rfl, fun c => by simp [routedSum], fun c k0 => by simp [contributors]⟩
  | cons l rest ih =>
    intro acc hacc
    obtain ⟨st1, key1, hstep, htot1, hslot1, hacc1⟩ :=
      processLedger_wellRouted_step m sm acc l (hw l (by simp)) hacc
    obtain ⟨st2, key2, hfold, htot2, hslot2⟩ :=
      ih (fun x hx => hw x (by simp [hx])) (st1, key1) hacc1
    refine ⟨st2, key2, ?_, ?_, ?_⟩
    · rw [List.foldlM_cons, hstep]
      exact hfold
    · intro c
      rw [htot2 c]
      dsimp only at htot1 ⊢
      rw [htot1 c]
      unfold routedSum
      rw [List.filter_cons]
      by_cases hc : routedCat m l = some c
      · simp [hc, add_assoc]
      · simp [hc]
    · intro c k0
      rw [hslot2 c k0]
      dsimp only
      rw [hslot1 c k0]
      unfold contributors
      rw [List.filter_cons]
      by_cases h1 : routedCat m l = some c
      · by_cases h2 : (subOf sm l).map (subKeyFor c) = some k0
        · simp [h1, h2]
        · simp [h1, h2]
      · simp [h1]

/-- C5 (amended): when every mapped, non-sentinel ledger's category code
matches a recognized keyword (so no unbound or stale `category_key` is
consulted), a successful aggregation of a ledger list is matched by a
successful aggregation of any permutation of it, with identical category
totals; each sub-schedule slot's contributing-ledger list is a permutation
of its counterpart, each matching its own input order. -/
theorem c5_perm_totals (l1 l2 : List Ledger) (m sm : Dict String) (tv : String)
    (hw : ∀ l ∈ l1, wellRouted m l = true) (hp : l1.Perm l2) (r1 : Result)
    (h1 : computeStatements m sm (some { ledgers := l1, tallyVersion := tv }) = .ok r1) :
    ∃ r2, computeStatements m sm (some { ledgers := l2, tallyVersion := tv }) = .ok r2 ∧
      (∀ c, (r1.stmts.cats c).total = (r2.stmts.cats c).total) ∧
      ∀ c k0, (slotLedgers r1.stmts (catKey c) k0).Perm
        (slotLedgers r2.stmts (catKey c) k0) := by
  have hmne : m ≠ [] := by
    intro he
    subst he
    rw [computeStatements_empty_mapping] at h1
    exact Except.noConfusion h1
  have hinit : ∀ c : Cat, (List.lookup (catKey c) initStatements.subSchedules).isSome = true := by
    decide
  obtain ⟨st1, key1, hf1, ht1, hs1⟩ :=
    foldlM_wellRouted m sm l1 hw (initStatements, none) hinit
  have hw2 : ∀ l ∈ l2, wellRouted m l = true := fun l hl => hw l (hp.mem_iff.mpr hl)
  obtain ⟨st2, key2, hf2, ht2, hs2⟩ :=
    foldlM_wellRouted m sm l2 hw2 (initStatements, none) hinit
  have hc1 : computeStatements m sm (some { ledgers := l1, tallyVersion := tv })
      = .ok (mkResult st1) := by
    unfold computeStatements foldLedgers
    dsimp only
    rw [hf1]
    dsimp only
    rw [if_neg hmne]
  have hc2 : computeStatements m sm (some { ledgers := l2, tallyVersion := tv })
      = .ok (mkResult st2) := by
    unfold computeStatements foldLedgers
    dsimp only
    rw [hf2]
    dsimp only
    rw [if_neg hmne]
  have hr1 : r1 = mkResult st1 := (Except.ok.inj (hc1.symm.trans h1)).symm
  refine ⟨mkResult st2, hc2, ?_, ?_⟩
  · intro c
    rw [hr1]
    show (st1.cats c).total = (st2.cats c).total
    rw [ht1 c, ht2 c]
    unfold routedSum
    rw [List.Perm.sum_eq (List.Perm.map Ledger.balance
      (List.Perm.filter (fun l => routedCat m l = some c) hp))]
  · intro c k0
    rw [hr1]
    show (slotLedgers st1 (catKey c) k0).Perm (slotLedgers st2 (catKey c) k0)
    rw [hs1 c k0, hs2 c k0]
    exact List.Perm.append_left _ (List.Perm.filter _ hp)

/-- C5 witness: the amended permutation law at the concrete scenario
ledgers, swapped. -/
theorem c5_witness :
    ∃ r2, computeStatements mapScenario6 []
        (some { ledgers := [{ name := "Secured Loans", balance := 150000 },
          { name := "Capital Account", balance := 800000 }], tallyVersion := "Tally" })
        = .ok r2 ∧
      ∃ r1, computeStatements mapScenario6 []
        (some { ledgers := ledgersScenario6, tallyVersion := "Tally" }) = .ok r1 ∧
      (∀ c, (r1.stmts.cats c).total = (r2.stmts.cats c).total) := by
  obtain ⟨r2, hok, htot, -⟩ := c5_perm_totals ledgersScenario6
    [{ name := "Secured Loans", balance := 150000 },
     { name := "Capital Account", balance := 800000 }]
    mapScenario6 [] "Tally" (by decide)
    (by unfold ledgersScenario6; exact List.Perm.swap _ _ []) _ rfl
  exact ⟨r2, hok, _, rfl, htot⟩

end FinApp
